import Mathlib

/-!
Verification of the Diagram Persistence & Retention Engine of the kroki_editor
repository (hooks `useDiagramStorage` and `useAutoSave`).

The IndexedDB-backed store is a key-value map whose keys are the records' `id`
fields (every write is `set(diagram.id, diagram)`); we embed it as a list of
records keyed by the `id` field.  Asynchronous store operations are embedded as
pure state-passing functions; a thrown exception is embedded as `Except.error`.
JavaScript numbers holding epoch milliseconds are embedded as `Int` (so that
`now - timestamp` can be negative, exactly as in the source).
-/

namespace Kroki

/-- Output format enumeration, from `types/index.ts` (`'svg' | 'png' | 'jpeg' | 'pdf' | 'txt' | 'base64'`). -/
inductive OutputFormat
  | svg | png | jpeg | pdf | txt | base64
deriving DecidableEq

/-- Value of a diagram-type-specific rendering option (`string | number | boolean`). -/
inductive OptionValue
  | str (s : String)
  | num (n : Int)
  | boolean (b : Bool)
deriving DecidableEq

/-- Modelled from the spec: the `SavedDiagram` interface (the declaration in
`types/index.ts` is not among the provided sources; fields follow the spec's
data-model table in section 3 and every use site in `useDiagramStorage`).
`diagramType` is a string-literal union at runtime, embedded as `String`;
`timestamp` is epoch milliseconds. -/
structure SavedDiagram where
  id : String
  name : String
  source : String
  diagramType : String
  outputFormat : OutputFormat
  options : List (String × OptionValue)
  timestamp : Int
  isPinned : Bool
deriving DecidableEq

/-- The entity store: the point-in-time contents of the IndexedDB key-value
store, keyed by the record's `id` field. -/
abbrev Store : Type := List SavedDiagram

/-- Maximum number of diagrams to keep (`MAX_DIAGRAMS = 50`). -/
def MAX_DIAGRAMS : Nat := 50

/-- Number of days to retain diagrams (`RETENTION_DAYS = 90`). -/
def RETENTION_DAYS : Nat := 90

/-- Retention period in milliseconds (`RETENTION_MS = RETENTION_DAYS * 24 * 60 * 60 * 1000`). -/
def RETENTION_MS : Int := (RETENTION_DAYS : Int) * 24 * 60 * 60 * 1000

/-- The comparator of `fetchAllDiagrams` as a relation (`a` may come before `b`):
pinned items first, then by timestamp newest first.  `listOrder a b` holds
exactly when the source's comparator returns a non-positive number on `(a, b)`. -/
def listOrder (a b : SavedDiagram) : Prop :=
  (a.isPinned = true ∧ b.isPinned = false) ∨ (a.isPinned = b.isPinned ∧ b.timestamp ≤ a.timestamp)

instance : DecidableRel listOrder := fun a b => by
  unfold listOrder
  exact inferInstance

instance : IsTotal SavedDiagram listOrder where
  total a b := by
    unfold listOrder
    rcases ha : a.isPinned <;> rcases hb : b.isPinned <;>
      rcases Int.le_total a.timestamp b.timestamp with h | h <;> tauto

instance : IsTrans SavedDiagram listOrder where
  trans a b c hab hbc := by
    unfold listOrder at *
    rcases hab with ⟨h1, h2⟩ | ⟨h1, h2⟩ <;> rcases hbc with ⟨h3, h4⟩ | ⟨h3, h4⟩
    · rw [h2] at h3; cases h3
    · left; exact ⟨h1, by rw [← h3]; exact h2⟩
    · left; exact ⟨h1.trans h3, h4⟩
    · right; exact ⟨h1.trans h3, le_trans h4 h2⟩

/-- The ascending-timestamp comparator of the count phase
(`(a, b) => a.timestamp - b.timestamp`, oldest first) as a relation. -/
def tsAsc (a b : SavedDiagram) : Prop := a.timestamp ≤ b.timestamp

instance : DecidableRel tsAsc := fun a b => by
  unfold tsAsc
  exact inferInstance

instance : IsTotal SavedDiagram tsAsc where
  total a b := Int.le_total a.timestamp b.timestamp

instance : IsTrans SavedDiagram tsAsc where
  trans _ _ _ hab hbc := le_trans hab hbc

/-- `fetchAllDiagrams`: enumerate the store and sort with the pinned-first,
newest-first comparator.  `Array.prototype.sort` is a stable sort, so a stable
sort (insertion sort) embeds it. -/
def fetchAllDiagrams (store : Store) : List SavedDiagram :=
  List.insertionSort listOrder store

/-- `fetchDiagram` / `get(id)`: look up a record by its key. -/
def fetchDiagram (store : Store) (i : String) : Option SavedDiagram :=
  store.find? (fun d => d.id == i)

/-- `saveDiagramToDb` / `set(diagram.id, diagram)`: upsert, keyed by the record's `id`. -/
def setDb (store : Store) (record : SavedDiagram) : Store :=
  if store.any (fun d => d.id == record.id) then
    store.map (fun d => if d.id == record.id then record else d)
  else
    store ++ [record]

/-- `deleteDiagramFromDb` / `del(id)`: remove the record with the given key (no-op if absent). -/
def delDb (store : Store) (i : String) : Store :=
  store.filter (fun d => !(d.id == i))

/-- The expired unpinned diagrams of the age phase of `cleanupDiagrams`: among
the unpinned diagrams of the `fetchAllDiagrams` enumeration, those with
`now - diagram.timestamp > RETENTION_MS`.  The age phase deletes exactly the
ids of this list, in this order. -/
def expiredUnpinned (store : Store) (now : Int) : List SavedDiagram :=
  ((fetchAllDiagrams store).filter (fun d => !d.isPinned)).filter
    (fun d => RETENTION_MS < now - d.timestamp)

/-- The store contents after phase 1 of `cleanupDiagrams` (the loop of
`deleteDiagramFromDb` calls on the expired unpinned diagrams). -/
def agePhase (store : Store) (now : Int) : Store :=
  store.filter (fun d => !(((expiredUnpinned store now).map (·.id)).contains d.id))

/-- The diagrams deleted by phase 2 of `cleanupDiagrams`: when the re-read
store holds more than `MAX_DIAGRAMS` records in total, the oldest
`min (total - MAX_DIAGRAMS) (number of unpinned)` unpinned records, by
ascending timestamp. -/
def countPhaseVictims (s1 : Store) : List SavedDiagram :=
  let remainingDiagrams := fetchAllDiagrams s1
  let remainingUnpinned := remainingDiagrams.filter (fun d => !d.isPinned)
  if MAX_DIAGRAMS < remainingDiagrams.length then
    let sortedUnpinned := List.insertionSort tsAsc remainingUnpinned
    let excessCount := remainingDiagrams.length - MAX_DIAGRAMS
    sortedUnpinned.take (min excessCount sortedUnpinned.length)
  else
    []

/-- The store contents after phase 2 of `cleanupDiagrams`. -/
def countPhase (s1 : Store) : Store :=
  s1.filter (fun d => !(((countPhaseVictims s1).map (·.id)).contains d.id))

/-- `cleanupDiagrams` when every store operation succeeds: the final store
contents together with the returned `deletedCount` (phase 1 increments once
per expired unpinned diagram, phase 2 once per loop iteration). -/
def cleanupDiagrams (store : Store) (now : Int) : Store × Nat :=
  let s1 := agePhase store now
  (countPhase s1, (expiredUnpinned store now).length + (countPhaseVictims s1).length)

/-- Error taxonomy of the repository operations (`throw new Error(...)` sites). -/
inductive RepoError
  | invalidDiagram
  | notFound
  | emptyName
deriving DecidableEq

deriving instance DecidableEq for Except

/-- The argument of `saveDiagram`: `Omit<SavedDiagram, 'id' | 'timestamp'>`.
`isPinned` is an optional field of the TypeScript interface (`none` embeds an
absent property, which a spread does not copy). -/
structure DiagramDraft where
  name : String
  source : String
  diagramType : String
  outputFormat : OutputFormat
  options : List (String × OptionValue)
  isPinned : Option Bool := none
deriving DecidableEq

/-- The record built by `saveDiagram`:
`{ id: generateDiagramId(), timestamp: Date.now(), isPinned: false, ...diagram }`.
The draft is spread after the `isPinned: false` default, so a draft that
carries an `isPinned` property overrides the default. -/
def mkSavedDiagram (draft : DiagramDraft) (now : Int) (freshId : String) : SavedDiagram :=
  { id := freshId
    timestamp := now
    isPinned := draft.isPinned.getD false
    name := draft.name
    source := draft.source
    diagramType := draft.diagramType
    outputFormat := draft.outputFormat
    options := draft.options }

/-- `saveDiagram`: reject a draft whose `source` or `diagramType` is falsy
(the empty string), otherwise persist the new record and immediately run
`cleanupDiagrams`; returns the new id (paired here with the resulting store and
the deleted count).  `generateDiagramId()` is embedded as the `freshId`
argument. -/
def saveDiagram (store : Store) (draft : DiagramDraft) (now : Int) (freshId : String) :
    Except RepoError (String × Store × Nat) :=
  if draft.source = "" ∨ draft.diagramType = "" then
    .error .invalidDiagram
  else
    let savedDiagram := mkSavedDiagram draft now freshId
    let afterSet := setDb store savedDiagram
    let cleaned := cleanupDiagrams afterSet now
    .ok (savedDiagram.id, cleaned.1, cleaned.2)

/-- `togglePinInDb`: throw `NotFound` for a missing id, otherwise persist the
record with `isPinned` flipped and return the new pin status. -/
def togglePinInDb (store : Store) (i : String) : Except RepoError (Bool × Store) :=
  match fetchDiagram store i with
  | none => .error .notFound
  | some d => .ok (!d.isPinned, setDb store { d with isPinned := !d.isPinned })

/-- `renameDiagramInDb`: throw `NotFound` for a missing id, otherwise persist
the record with `name` replaced. -/
def renameDiagramInDb (store : Store) (i : String) (newName : String) : Except RepoError Store :=
  match fetchDiagram store i with
  | none => .error .notFound
  | some d => .ok (setDb store { d with name := newName })

/-- JavaScript `String.prototype.trim`: strip leading and trailing whitespace
(embedded over the character list, since the claims only involve ASCII
whitespace). -/
def jsTrim (s : String) : String :=
  String.mk (((s.data.dropWhile Char.isWhitespace).reverse.dropWhile Char.isWhitespace).reverse)

/-- `renameDiagram` (the hook wrapper): throw `EmptyName` when the new name
trims to the empty string, otherwise delegate to `renameDiagramInDb` with the
trimmed name. -/
def renameDiagram (store : Store) (i : String) (newName : String) : Except RepoError Store :=
  if jsTrim newName = "" then
    .error .emptyName
  else
    renameDiagramInDb store i (jsTrim newName)

/-- `getLastDiagram`: `diagrams[0]` of the `fetchAllDiagrams` enumeration. -/
def getLastDiagram (store : Store) : Option SavedDiagram :=
  (fetchAllDiagrams store).head?

/-- The guard of `useAutoSave` (`if (!source.trim()) return;`): a save is
scheduled for a tuple exactly when its source does not trim to empty. -/
def autoSaveSchedules (source : String) : Bool :=
  !(jsTrim source == "")

/-- The number of unpinned records in a store. -/
def countUnpinned (store : Store) : Nat :=
  (store.filter (fun d => !d.isPinned)).length

/-- Sequential `deleteDiagramFromDb` calls on a list of ids, with a failure
oracle: `fails i = true` embeds a rejected `del(i)` promise.  A failure throws
out of the loop: the store state reached so far is returned as the error value
and the remaining ids are not attempted.  On success the accumulated
`deletedCount` grows by one per id. -/
def runDeletes (fails : String → Bool) : List String → Store → Nat → Except Store (Store × Nat)
  | [], s, n => .ok (s, n)
  | i :: rest, s, n =>
    if fails i then .error s
    else runDeletes fails rest (delDb s i) (n + 1)

/-- `cleanupDiagrams` with a delete-failure oracle: there is no try/catch
inside the function, so a failed delete in either phase aborts the whole pass
(the error value is the store contents at the moment of the failure). -/
def cleanupDiagramsF (fails : String → Bool) (store : Store) (now : Int) :
    Except Store (Store × Nat) :=
  match runDeletes fails ((expiredUnpinned store now).map (·.id)) store 0 with
  | .error s => .error s
  | .ok (s1, n1) =>
    match runDeletes fails ((countPhaseVictims s1).map (·.id)) s1 n1 with
    | .error s => .error s
    | .ok r => .ok r

/-- `cleanupOldDiagrams` (the hook wrapper around `cleanupDiagrams`): its
catch block swallows the error and returns `0`. -/
def cleanupOldDiagrams (fails : String → Bool) (store : Store) (now : Int) : Store × Nat :=
  match cleanupDiagramsF fails store now with
  | .ok r => r
  | .error s => (s, 0)

/-! ### Helper lemmas -/

/-- The `fetchAllDiagrams` enumeration is a permutation of the store. -/
theorem perm_fetchAll (store : Store) : (fetchAllDiagrams store).Perm store :=
  List.perm_insertionSort listOrder store

theorem mem_fetchAll {d : SavedDiagram} {store : Store} :
    d ∈ fetchAllDiagrams store ↔ d ∈ store :=
  (perm_fetchAll store).mem_iff

theorem length_fetchAll (store : Store) : (fetchAllDiagrams store).length = store.length :=
  (perm_fetchAll store).length_eq

/-- Membership reading of `contains` over the projected id list. -/
theorem contains_id_iff (l : List SavedDiagram) (i : String) :
    ((l.map (·.id)).contains i = true) ↔ ∃ e ∈ l, e.id = i := by
  simp [List.contains_iff_exists_mem_beq, eq_comm]

/-- Unfolding equation for `countPhaseVictims` with its local bindings inlined. -/
theorem countPhaseVictims_def (s1 : Store) :
    countPhaseVictims s1 =
      if MAX_DIAGRAMS < (fetchAllDiagrams s1).length then
        (List.insertionSort tsAsc ((fetchAllDiagrams s1).filter (fun d => !d.isPinned))).take
          (min ((fetchAllDiagrams s1).length - MAX_DIAGRAMS)
            (List.insertionSort tsAsc
              ((fetchAllDiagrams s1).filter (fun d => !d.isPinned))).length)
      else [] :=
  rfl

/-- Every diagram the age phase flags is unpinned. -/
theorem expiredUnpinned_unpinned {store : Store} {now : Int} {e : SavedDiagram}
    (h : e ∈ expiredUnpinned store now) : e.isPinned = false := by
  have h1 := List.of_mem_filter (List.mem_of_mem_filter h)
  simpa using h1

/-- Every diagram the age phase flags is in the store. -/
theorem expiredUnpinned_subset {store : Store} {now : Int} {e : SavedDiagram}
    (h : e ∈ expiredUnpinned store now) : e ∈ store :=
  mem_fetchAll.mp (List.mem_of_mem_filter (List.mem_of_mem_filter h))

/-- Every diagram the count phase flags is unpinned. -/
theorem countPhaseVictims_unpinned {s1 : Store} {e : SavedDiagram}
    (h : e ∈ countPhaseVictims s1) : e.isPinned = false := by
  rw [countPhaseVictims_def] at h
  split at h
  · have h1 : e ∈ List.insertionSort tsAsc
        ((fetchAllDiagrams s1).filter (fun d => !d.isPinned)) :=
      List.mem_of_mem_take h
    have h2 := (List.perm_insertionSort tsAsc _).mem_iff.mp h1
    simpa using List.of_mem_filter h2
  · cases h

/-- Every diagram the count phase flags is in the (post-age-phase) store. -/
theorem countPhaseVictims_subset {s1 : Store} {e : SavedDiagram}
    (h : e ∈ countPhaseVictims s1) : e ∈ s1 := by
  rw [countPhaseVictims_def] at h
  split at h
  · have h1 : e ∈ List.insertionSort tsAsc
        ((fetchAllDiagrams s1).filter (fun d => !d.isPinned)) :=
      List.mem_of_mem_take h
    have h2 := (List.perm_insertionSort tsAsc _).mem_iff.mp h1
    exact mem_fetchAll.mp (List.mem_of_mem_filter h2)
  · cases h

/-- When the count phase is not triggered (no more than `MAX_DIAGRAMS` records
remain), there are no victims. -/
theorem countPhaseVictims_eq_nil {s1 : Store}
    (h : (fetchAllDiagrams s1).length ≤ MAX_DIAGRAMS) : countPhaseVictims s1 = [] := by
  rw [countPhaseVictims_def, if_neg (not_lt.mpr h)]

/-- When the count phase is not triggered, the store is untouched. -/
theorem countPhase_eq_self {s1 : Store}
    (h : (fetchAllDiagrams s1).length ≤ MAX_DIAGRAMS) : countPhase s1 = s1 := by
  unfold countPhase
  rw [countPhaseVictims_eq_nil h]
  simp

/-- A record that no flagged record shares an id with survives an id-based
deletion sweep. -/
theorem mem_filter_not_contains {l victims : List SavedDiagram} {d : SavedDiagram}
    (hmem : d ∈ l) (hno : ∀ e ∈ victims, e.id ≠ d.id) :
    d ∈ l.filter (fun e => !((victims.map (·.id)).contains e.id)) := by
  refine List.mem_filter.mpr ⟨hmem, ?_⟩
  simp only [Bool.not_eq_true']
  rw [← Bool.not_eq_true, contains_id_iff]
  rintro ⟨e, he, hid⟩
  exact hno e he hid

/-- Distinct ids make the id projection injective on store members (this is the
store's key-uniqueness invariant: IndexedDB keys are unique and every write
uses `set(diagram.id, diagram)`). -/
theorem id_injOn {store : Store} (hnodup : (store.map (·.id)).Nodup) :
    ∀ ⦃x⦄, x ∈ store → ∀ ⦃y⦄, y ∈ store → x.id = y.id → x = y :=
  List.inj_on_of_nodup_map hnodup

/-- A filter sweep preserves distinctness of ids. -/
theorem nodup_filter {store : Store} (p : SavedDiagram → Bool)
    (hnodup : (store.map (·.id)).Nodup) :
    ((store.filter p).map (·.id)).Nodup :=
  ((List.filter_sublist store).map (·.id)).nodup hnodup

/-! ### C4 — pin exemption -/

/-- C4: for every record set, every value of `now`, and any age or count
pressure, a record with `isPinned = true` is never included in the retention
engine's delete set (neither the age-phase list nor the count-phase list) and
is still present in the store after the cleanup pass.  The distinct-ids
hypothesis is the store's key invariant. -/
theorem pinned_never_deleted (store : Store) (now : Int) (d : SavedDiagram)
    (hmem : d ∈ store) (hp : d.isPinned = true)
    (hnodup : (store.map (·.id)).Nodup) :
    d ∉ expiredUnpinned store now ∧ d ∉ countPhaseVictims (agePhase store now) ∧
      d ∈ (cleanupDiagrams store now).1 := by
  have hne : ∀ e ∈ expiredUnpinned store now, e.id ≠ d.id := by
    intro e he heq
    have hed : e = d := id_injOn hnodup (expiredUnpinned_subset he) hmem heq
    rw [hed] at he
    exact absurd (expiredUnpinned_unpinned he) (by simp [hp])
  have h1 : d ∈ agePhase store now := mem_filter_not_contains hmem hne
  have hnodup1 : ((agePhase store now).map (·.id)).Nodup := nodup_filter _ hnodup
  have hne2 : ∀ e ∈ countPhaseVictims (agePhase store now), e.id ≠ d.id := by
    intro e he heq
    have hed : e = d := id_injOn hnodup1 (countPhaseVictims_subset he) h1 heq
    rw [hed] at he
    exact absurd (countPhaseVictims_unpinned he) (by simp [hp])
  have h2 : d ∈ countPhase (agePhase store now) := mem_filter_not_contains h1 hne2
  refine ⟨?_, ?_, h2⟩
  · intro hd
    exact absurd (expiredUnpinned_unpinned hd) (by simp [hp])
  · intro hd
    exact absurd (countPhaseVictims_unpinned hd) (by simp [hp])

/-- A concrete pinned record used by witnesses. -/
def recP : SavedDiagram :=
  { id := "pin1"
    name := "n"
    source := "s"
    diagramType := "plantuml"
    outputFormat := .svg
    options := []
    timestamp := 7
    isPinned := true }

/-- Witness for C4 at a concrete one-record store. -/
theorem pinned_never_deleted_witness :
    recP ∉ expiredUnpinned [recP] 0 ∧ recP ∉ countPhaseVictims (agePhase [recP] 0) ∧
      recP ∈ (cleanupDiagrams [recP] 0).1 :=
  pinned_never_deleted [recP] 0 recP (by decide) (by decide) (by decide)

/-! ### C5 — age phase boundary -/

/-- C5: the age phase is strictly greater-than.  An unpinned record whose age
`now - timestamp` equals `RETENTION_MS` exactly is not flagged and survives the
age phase; one whose age is `RETENTION_MS + 1` is flagged and is removed by the
age phase. -/
theorem age_phase_boundary (store : Store) (now : Int) (d : SavedDiagram)
    (hmem : d ∈ store) (hnp : d.isPinned = false)
    (hnodup : (store.map (·.id)).Nodup) :
    (now - d.timestamp = RETENTION_MS →
      d ∉ expiredUnpinned store now ∧ d ∈ agePhase store now) ∧
    (now - d.timestamp = RETENTION_MS + 1 →
      d ∈ expiredUnpinned store now ∧ d ∉ agePhase store now) := by
  constructor
  · intro hage
    have hnotexp : d ∉ expiredUnpinned store now := by
      intro hd
      have hlt := List.of_mem_filter hd
      rw [hage] at hlt
      simp at hlt
    refine ⟨hnotexp, mem_filter_not_contains hmem ?_⟩
    intro e he heq
    have hed : e = d := id_injOn hnodup (expiredUnpinned_subset he) hmem heq
    exact hnotexp (hed ▸ he)
  · intro hage
    have hexp : d ∈ expiredUnpinned store now := by
      unfold expiredUnpinned
      refine List.mem_filter.mpr ⟨List.mem_filter.mpr ⟨mem_fetchAll.mpr hmem, ?_⟩, ?_⟩
      · simp [hnp]
      · rw [hage]
        simp
    refine ⟨hexp, ?_⟩
    intro hin
    have hpred := List.of_mem_filter hin
    rw [Bool.not_eq_true'] at hpred
    rw [← Bool.not_eq_true] at hpred
    exact hpred ((contains_id_iff _ _).mpr ⟨d, hexp, rfl⟩)

/-- A concrete unpinned record with timestamp 0 used by witnesses. -/
def recU0 : SavedDiagram :=
  { id := "u0"
    name := "n"
    source := "s"
    diagramType := "plantuml"
    outputFormat := .svg
    options := []
    timestamp := 0
    isPinned := false }

/-- Witness for C5: with `now = RETENTION_MS` the age of `recU0` is exactly the
threshold and the record survives the age phase. -/
theorem age_phase_boundary_witness :
    recU0 ∉ expiredUnpinned [recU0] RETENTION_MS ∧ recU0 ∈ agePhase [recU0] RETENTION_MS :=
  (age_phase_boundary [recU0] RETENTION_MS recU0 (by decide) (by decide) (by decide)).1
    (by decide)

/-! ### C1 — the count phase trigger counts pinned records -/

/-- C1 counterexample ingredient: a pinned record with a small numeric suffix id. -/
def pinnedRecC1 (n : Nat) : SavedDiagram :=
  { id := String.append "p" (toString n)
    name := "n"
    source := "s"
    diagramType := "plantuml"
    outputFormat := .svg
    options := []
    timestamp := (n : Int)
    isPinned := true }

/-- C1 counterexample ingredient: a single unpinned record. -/
def unpinnedRecC1 : SavedDiagram :=
  { id := "u"
    name := "n"
    source := "s"
    diagramType := "plantuml"
    outputFormat := .svg
    options := []
    timestamp := 100
    isPinned := false }

/-- C1 counterexample store: 51 pinned records and 1 unpinned record, none of
them expired at `now = 200`. -/
def storeC1 : Store := (List.range 51).map pinnedRecC1 ++ [unpinnedRecC1]

/-- C1 counterexample: the claim says the count phase triggers deletions only
when the number of *unpinned* records among the remaining set exceeds 50.  In
`storeC1` only 1 unpinned record exists (well below 50), yet the count phase
flags and deletes it, because the trigger `remainingDiagrams.length >
MAX_DIAGRAMS` counts the 51 pinned records as well. -/
theorem count_phase_unpinned_counterexample :
    countUnpinned storeC1 = 1 ∧
    countUnpinned (agePhase storeC1 200) = 1 ∧
    unpinnedRecC1 ∈ countPhaseVictims (agePhase storeC1 200) ∧
    unpinnedRecC1 ∉ (cleanupDiagrams storeC1 200).1 ∧
    (cleanupDiagrams storeC1 200).2 = 1 := by
  decide

/-- C1 amended: the count phase triggers deletions only when the *total* number
of remaining records (pinned ones included) exceeds `MAX_DIAGRAMS`, and every
record it deletes is unpinned: when the total is within the cap the store is
untouched, and any record removed by the count phase is unpinned (and the
total exceeded the cap). -/
theorem count_phase_total_trigger (s1 : Store) (hnodup : (s1.map (·.id)).Nodup) :
    ((fetchAllDiagrams s1).length ≤ MAX_DIAGRAMS → countPhase s1 = s1) ∧
    ∀ d ∈ s1, d ∉ countPhase s1 →
      d.isPinned = false ∧ MAX_DIAGRAMS < (fetchAllDiagrams s1).length := by
  refine ⟨countPhase_eq_self, ?_⟩
  intro d hd hnot
  have hvic : ∃ v ∈ countPhaseVictims s1, v.id = d.id := by
    by_contra hno
    push_neg at hno
    exact hnot (mem_filter_not_contains hd hno)
  obtain ⟨v, hv, hvid⟩ := hvic
  have hvd : v = d := id_injOn hnodup (countPhaseVictims_subset hv) hd hvid
  have htrig : MAX_DIAGRAMS < (fetchAllDiagrams s1).length := by
    by_contra hle
    rw [countPhaseVictims_eq_nil (not_lt.mp hle)] at hv
    cases hv
  exact ⟨hvd ▸ countPhaseVictims_unpinned hv, htrig⟩

/-- Witness for the amended C1 at a concrete one-record store. -/
theorem count_phase_total_trigger_witness : countPhase [recP] = [recP] :=
  (count_phase_total_trigger [recP] (by decide)).1 (by decide)

/-! ### C3 — cap invariant on unpinned records -/

/-- After the count phase, at most `MAX_DIAGRAMS` unpinned records remain, for
any input store whatsoever. -/
theorem countPhase_unpinned_le (s1 : Store) :
    countUnpinned (countPhase s1) ≤ MAX_DIAGRAMS := by
  by_cases h : MAX_DIAGRAMS < (fetchAllDiagrams s1).length
  case neg =>
    rw [countPhase_eq_self (not_lt.mp h)]
    calc countUnpinned s1 ≤ s1.length := List.length_filter_le _ _
      _ = (fetchAllDiagrams s1).length := (length_fetchAll s1).symm
      _ ≤ MAX_DIAGRAMS := not_lt.mp h
  case pos =>
    set sorted := List.insertionSort tsAsc ((fetchAllDiagrams s1).filter (fun d => !d.isPinned))
      with hsorted
    set k := min ((fetchAllDiagrams s1).length - MAX_DIAGRAMS) sorted.length with hk
    have hvic : countPhaseVictims s1 = sorted.take k := by
      rw [countPhaseVictims_def, if_pos h]
    set p : SavedDiagram → Bool := fun e => !(((sorted.take k).map (·.id)).contains e.id)
      with hp
    have hperm : sorted.Perm (s1.filter (fun d => !d.isPinned)) :=
      (List.perm_insertionSort tsAsc _).trans ((perm_fetchAll s1).filter _)
    have hswap : countUnpinned (countPhase s1) =
        ((s1.filter (fun d => !d.isPinned)).filter p).length := by
      unfold countUnpinned countPhase
      rw [hvic, List.filter_comm, ← hp]
    have hlen : ((s1.filter (fun d => !d.isPinned)).filter p).length =
        (sorted.filter p).length :=
      (hperm.filter p).length_eq.symm
    have htake : (sorted.take k).filter p = [] := by
      rw [List.filter_eq_nil_iff]
      intro a ha hba
      rw [hp, Bool.not_eq_true'] at hba
      have hct : ((sorted.take k).map (·.id)).contains a.id = true :=
        (contains_id_iff _ _).mpr ⟨a, ha, rfl⟩
      rw [hct] at hba
      cases hba
    have hbound : (sorted.filter p).length ≤ sorted.length - k := by
      conv_lhs =>
        rw [show sorted = sorted.take k ++ sorted.drop k from
          (List.take_append_drop k sorted).symm]
      rw [List.filter_append, htake]
      simp only [List.nil_append]
      calc ((sorted.drop k).filter p).length ≤ (sorted.drop k).length :=
            List.length_filter_le _ _
        _ = sorted.length - k := List.length_drop k sorted
    have hU : sorted.length ≤ (fetchAllDiagrams s1).length := by
      rw [(List.perm_insertionSort tsAsc _).length_eq]
      exact List.length_filter_le _ _
    rw [hswap, hlen]
    omega

/-- After any full cleanup pass, at most `MAX_DIAGRAMS` unpinned records remain. -/
theorem cleanup_unpinned_le (store : Store) (now : Int) :
    countUnpinned (cleanupDiagrams store now).1 ≤ MAX_DIAGRAMS :=
  countPhase_unpinned_le (agePhase store now)

/-- C3: after each successful save (which runs the retention pass over the full
updated set), the number of unpinned records in the resulting store does not
exceed `MAX_DIAGRAMS = 50`.  This holds for every starting store, hence for
every sequence of saves, and in fact without any proviso about how many
unpinned records are available to delete. -/
theorem save_cap_invariant (store : Store) (draft : DiagramDraft) (now : Int)
    (freshId rid : String) (s' : Store) (n : Nat)
    (h : saveDiagram store draft now freshId = .ok (rid, s', n)) :
    countUnpinned s' ≤ MAX_DIAGRAMS := by
  unfold saveDiagram at h
  split at h
  · cases h
  · simp only [Except.ok.injEq, Prod.mk.injEq] at h
    obtain ⟨-, hs, -⟩ := h
    rw [← hs]
    exact cleanup_unpinned_le _ _

/-- A concrete valid draft used by witnesses. -/
def demoDraft : DiagramDraft :=
  { name := "n"
    source := "a"
    diagramType := "plantuml"
    outputFormat := .svg
    options := [] }

/-- Witness for C3: saving the demo draft into the empty store succeeds and the
resulting store satisfies the cap. -/
theorem save_cap_invariant_witness :
    countUnpinned [mkSavedDiagram demoDraft 0 "d1"] ≤ MAX_DIAGRAMS :=
  save_cap_invariant [] demoDraft 0 "d1" "d1" [mkSavedDiagram demoDraft 0 "d1"] 0 (by decide)

/-! ### C2 — what save creates -/

/-- An upsert with a fresh key appends exactly one record. -/
theorem setDb_append {store : Store} {record : SavedDiagram}
    (hfresh : ∀ d ∈ store, d.id ≠ record.id) :
    setDb store record = store ++ [record] := by
  have hany : store.any (fun d => d.id == record.id) = false := by
    rw [List.any_eq_false]
    intro d hd
    simp [hfresh d hd]
  unfold setDb
  rw [hany]
  simp

/-- C2 counterexample ingredient: a draft that carries `isPinned: true`. -/
def pinnedDraft : DiagramDraft :=
  { name := "n"
    source := "a"
    diagramType := "plantuml"
    outputFormat := .svg
    options := []
    isPinned := some true }

/-- C2 counterexample: the claim says the record created by save has
`isPinned = false` regardless of the contents of the draft.  But the draft is
spread after the `isPinned: false` default, so a draft carrying
`isPinned: true` produces a pinned record. -/
theorem save_pinned_draft_counterexample :
    saveDiagram [] pinnedDraft 5 "d1" = .ok ("d1", [mkSavedDiagram pinnedDraft 5 "d1"], 0) ∧
    (mkSavedDiagram pinnedDraft 5 "d1").isPinned = true := by
  decide

/-- C2 amended: for every valid draft and fresh id, save creates exactly one
new record (the store before cleanup is the old store plus that single
record), whose id is the freshly generated one and whose timestamp is `now`;
its `isPinned` field is `false` by default but is overridden by the draft's
own `isPinned` property when present; and save then runs the retention pass
over the full updated set, returning the new id. -/
theorem save_amended (store : Store) (draft : DiagramDraft) (now : Int) (freshId : String)
    (hs : draft.source ≠ "") (ht : draft.diagramType ≠ "")
    (hfresh : ∀ d ∈ store, d.id ≠ freshId) :
    (mkSavedDiagram draft now freshId).id = freshId ∧
    (mkSavedDiagram draft now freshId).timestamp = now ∧
    (mkSavedDiagram draft now freshId).isPinned = draft.isPinned.getD false ∧
    setDb store (mkSavedDiagram draft now freshId) =
      store ++ [mkSavedDiagram draft now freshId] ∧
    saveDiagram store draft now freshId =
      .ok (freshId, (cleanupDiagrams (store ++ [mkSavedDiagram draft now freshId]) now).1,
        (cleanupDiagrams (store ++ [mkSavedDiagram draft now freshId]) now).2) := by
  have happ : setDb store (mkSavedDiagram draft now freshId) =
      store ++ [mkSavedDiagram draft now freshId] :=
    setDb_append (fun d hd => hfresh d hd)
  refine ⟨rfl, rfl, rfl, happ, ?_⟩
  unfold saveDiagram
  rw [if_neg (by simp [hs, ht])]
  simp only [happ]
  rfl

/-- Witness for the amended C2 at the empty store. -/
theorem save_amended_witness :
    (mkSavedDiagram demoDraft 0 "d1").id = "d1" ∧
    (mkSavedDiagram demoDraft 0 "d1").timestamp = 0 ∧
    (mkSavedDiagram demoDraft 0 "d1").isPinned = demoDraft.isPinned.getD false ∧
    setDb [] (mkSavedDiagram demoDraft 0 "d1") = [] ++ [mkSavedDiagram demoDraft 0 "d1"] ∧
    saveDiagram [] demoDraft 0 "d1" =
      .ok ("d1", (cleanupDiagrams ([] ++ [mkSavedDiagram demoDraft 0 "d1"]) 0).1,
        (cleanupDiagrams ([] ++ [mkSavedDiagram demoDraft 0 "d1"]) 0).2) :=
  save_amended [] demoDraft 0 "d1" (by decide) (by decide) (by decide)

/-! ### C6 — a delete failure aborts the retention pass -/

/-- When some id in the worklist fails, the delete loop throws: it stops at the
first failing id instead of continuing. -/
theorem runDeletes_error_of_exists (fails : String → Bool) (ids : List String)
    (s : Store) (n : Nat) (h : ∃ i ∈ ids, fails i = true) :
    ∃ s', runDeletes fails ids s n = .error s' := by
  induction ids generalizing s n with
  | nil => simp at h
  | cons i rest ih =>
    by_cases hi : fails i = true
    · exact ⟨s, by simp [runDeletes, hi]⟩
    · obtain ⟨j, hj, hfj⟩ := h
      rcases List.mem_cons.mp hj with rfl | hj'
      · exact absurd hfj hi
      · obtain ⟨s', hs'⟩ := ih (delDb s i) (n + 1) ⟨j, hj', hfj⟩
        exact ⟨s', by simp [runDeletes, hi, hs']⟩

/-- C6 amended: a failure to delete one flagged record is fatal to the
retention pass, not non-fatal: when any id in the age-phase delete list fails,
`cleanupDiagrams` throws (remaining deletions are not attempted), and the
`cleanupOldDiagrams` wrapper catches the error and reports `0` deletions
rather than the count of deletions that succeeded before the failure. -/
theorem cleanup_delete_failure_aborts (fails : String → Bool) (store : Store) (now : Int)
    (h : ∃ i ∈ (expiredUnpinned store now).map (·.id), fails i = true) :
    (∃ s, cleanupDiagramsF fails store now = .error s) ∧
    (cleanupOldDiagrams fails store now).2 = 0 := by
  obtain ⟨s', hs'⟩ := runDeletes_error_of_exists fails _ store 0 h
  refine ⟨⟨s', ?_⟩, ?_⟩
  · unfold cleanupDiagramsF
    rw [hs']
  · unfold cleanupOldDiagrams cleanupDiagramsF
    rw [hs']

/-- C6 counterexample ingredients: three unpinned expired records. -/
def recA : SavedDiagram :=
  { id := "a", name := "n", source := "s", diagramType := "plantuml",
    outputFormat := .svg, options := [], timestamp := 5, isPinned := false }

def recB : SavedDiagram :=
  { id := "b", name := "n", source := "s", diagramType := "plantuml",
    outputFormat := .svg, options := [], timestamp := 3, isPinned := false }

def recC : SavedDiagram :=
  { id := "c", name := "n", source := "s", diagramType := "plantuml",
    outputFormat := .svg, options := [], timestamp := 1, isPinned := false }

def storeC6 : Store := [recA, recB, recC]

/-- The moment at which all three records of `storeC6` are expired. -/
def nowC6 : Int := RETENTION_MS + 6

/-- A delete oracle under which only the delete of id `"b"` fails. -/
def failsOnlyB : String → Bool := fun i => i == "b"

/-- C6 counterexample: all three records are flagged by the age phase and the
delete of `"a"` succeeds, but the failing delete of `"b"` aborts the pass:
`"c"` — whose own delete would have succeeded — is never attempted and stays
in the store, and the wrapper returns `0` instead of the count of successful
deletions (1). -/
theorem cleanup_failure_counterexample :
    recC ∈ expiredUnpinned storeC6 nowC6 ∧
    failsOnlyB recC.id = false ∧
    cleanupOldDiagrams failsOnlyB storeC6 nowC6 = ([recB, recC], 0) ∧
    recC ∈ (cleanupOldDiagrams failsOnlyB storeC6 nowC6).1 ∧
    recA ∉ (cleanupOldDiagrams failsOnlyB storeC6 nowC6).1 := by
  decide

/-- Witness for the amended C6: at the concrete failing store the pass throws
and the wrapper reports zero deletions. -/
theorem cleanup_delete_failure_aborts_witness :
    (∃ s, cleanupDiagramsF failsOnlyB storeC6 nowC6 = .error s) ∧
    (cleanupOldDiagrams failsOnlyB storeC6 nowC6).2 = 0 :=
  cleanup_delete_failure_aborts failsOnlyB storeC6 nowC6 (by decide)

/-- With no failures, the delete loop removes exactly the records whose ids
are in the worklist and counts one deletion per id. -/
theorem runDeletes_ok (ids : List String) (s : Store) (n : Nat) :
    runDeletes (fun _ => false) ids s n =
      .ok (s.filter (fun d => !(ids.contains d.id)), n + ids.length) := by
  induction ids generalizing s n with
  | nil => simp [runDeletes]
  | cons i rest ih =>
    simp only [runDeletes, if_neg]
    rw [ih (delDb s i) (n + 1)]
    refine congrArg Except.ok (Prod.ext ?_ (by rw [List.length_cons]; omega))
    show ((s.filter (fun d => !(d.id == i))).filter (fun d => !(rest.contains d.id))) = _
    rw [List.filter_filter]
    refine List.filter_congr ?_
    intro d _
    rw [List.contains_cons]
    rw [Bool.not_or]
    rw [Bool.and_comm]

/-- Coherence of the two cleanup embeddings: with a never-failing delete
oracle, the oracle version computes exactly the pure `cleanupDiagrams`. -/
theorem cleanupDiagramsF_no_failure (store : Store) (now : Int) :
    cleanupDiagramsF (fun _ => false) store now = .ok (cleanupDiagrams store now) := by
  unfold cleanupDiagramsF cleanupDiagrams
  simp only [runDeletes_ok]
  simp [agePhase, countPhase, List.length_map]

/-! ### C7 — sort contract and session-restore read -/

/-- C7: `fetchAllDiagrams` returns all records (a permutation of the store),
ordered with every pinned record before every unpinned one and by descending
timestamp within each pin group, and `getLastDiagram` is the head of that
order — `none` exactly on the empty store. -/
theorem list_sort_contract :
    (∀ store : Store,
      (fetchAllDiagrams store).Perm store ∧
      (fetchAllDiagrams store).Pairwise (fun a b =>
        (b.isPinned = true → a.isPinned = true) ∧
        (a.isPinned = b.isPinned → b.timestamp ≤ a.timestamp)) ∧
      getLastDiagram store = (fetchAllDiagrams store).head?) ∧
    getLastDiagram [] = none := by
  refine ⟨fun store => ⟨perm_fetchAll store, ?_, rfl⟩, rfl⟩
  have hs : (fetchAllDiagrams store).Pairwise listOrder :=
    List.sorted_insertionSort listOrder store
  refine hs.imp ?_
  intro a b hab
  rcases hab with ⟨h1, h2⟩ | ⟨h1, h2⟩
  · refine ⟨fun _ => h1, fun he => ?_⟩
    rw [h1, h2] at he
    cases he
  · exact ⟨fun hb => h1.trans hb, fun _ => h2⟩

/-! ### C8, C9 — rename and togglePin -/

/-- Updating the entry whose key is the found record's key makes a subsequent
lookup return the new record. -/
theorem find?_map_update (store : List SavedDiagram) (i : String) (d record : SavedDiagram)
    (hf : store.find? (fun e => e.id == i) = some d) (hid : record.id = d.id) :
    (store.map (fun e => if e.id == record.id then record else e)).find?
      (fun e => e.id == i) = some record := by
  induction store with
  | nil => cases hf
  | cons a rest ih =>
    rw [List.find?_cons] at hf
    simp only [List.map_cons, List.find?_cons]
    by_cases ha : (a.id == i) = true
    · rw [ha] at hf
      injection hf with had
      subst had
      have hfa : (if (a.id == record.id) = true then record else a) = record :=
        if_pos (beq_iff_eq.mpr hid.symm)
      have hri : (record.id == i) = true := by
        rw [show record.id = a.id from hid]
        exact ha
      rw [hfa, hri]
    · rw [Bool.not_eq_true] at ha
      rw [ha] at hf
      have hf' : List.find? (fun e => e.id == i) rest = some d := hf
      have hps := List.find?_some hf'
      have hdi : d.id = i := beq_iff_eq.mp hps
      have hfa : (if (a.id == record.id) = true then record else a) = a := by
        rw [if_neg]
        intro hbeq
        rw [beq_iff_eq.mp hbeq, hid, hdi] at ha
        simp at ha
      rw [hfa, ha]
      exact ih hf

/-- Upserting a record whose key equals the key of a found record makes the
lookup return the new record. -/
theorem fetchDiagram_setDb {store : Store} {i : String} {d : SavedDiagram}
    (record : SavedDiagram) (hf : fetchDiagram store i = some d) (hid : record.id = d.id) :
    fetchDiagram (setDb store record) i = some record := by
  have hmem : d ∈ store := List.mem_of_find?_eq_some hf
  have hany : store.any (fun e => e.id == record.id) = true :=
    List.any_eq_true.mpr ⟨d, hmem, beq_iff_eq.mpr hid.symm⟩
  unfold setDb
  rw [if_pos hany]
  exact find?_map_update store i d record hf hid

/-- An upsert of an existing key leaves every record with a different id in
place, in both directions. -/
theorem setDb_frame {store : Store} {record : SavedDiagram}
    (hany : store.any (fun e => e.id == record.id) = true) :
    (∀ e ∈ setDb store record, e.id ≠ record.id → e ∈ store) ∧
    (∀ e ∈ store, e.id ≠ record.id → e ∈ setDb store record) := by
  unfold setDb
  rw [if_pos hany]
  constructor
  · intro e he hne
    obtain ⟨e₀, he₀, hfe⟩ := List.mem_map.mp he
    by_cases h0 : (e₀.id == record.id) = true
    · rw [if_pos h0] at hfe
      exact absurd (by rw [← hfe]) hne
    · rw [if_neg h0] at hfe
      subst hfe
      exact he₀
  · intro e he hne
    refine List.mem_map.mpr ⟨e, he, ?_⟩
    rw [if_neg]
    intro hbeq
    exact hne (beq_iff_eq.mp hbeq)

/-- C9: for every existing record, `togglePinInDb` changes only the `isPinned`
field and `renameDiagramInDb` changes only the `name` field — the updated
record is literally the old record with that single field replaced (so `id`,
`source`, `diagramType`, `outputFormat`, `options`, and in particular
`timestamp` are unchanged), and every record with a different id is untouched
in both directions. -/
theorem pin_rename_frame (store : Store) (i : String) (d : SavedDiagram)
    (h : fetchDiagram store i = some d) (newName : String) :
    (∃ s₁, togglePinInDb store i = .ok (!d.isPinned, s₁) ∧
      fetchDiagram s₁ i = some { d with isPinned := !d.isPinned } ∧
      (∀ e ∈ s₁, e.id ≠ d.id → e ∈ store) ∧ (∀ e ∈ store, e.id ≠ d.id → e ∈ s₁)) ∧
    (∃ s₂, renameDiagramInDb store i newName = .ok s₂ ∧
      fetchDiagram s₂ i = some { d with name := newName } ∧
      (∀ e ∈ s₂, e.id ≠ d.id → e ∈ store) ∧ (∀ e ∈ store, e.id ≠ d.id → e ∈ s₂)) := by
  have hmem : d ∈ store := List.mem_of_find?_eq_some h
  have hany1 : store.any (fun e =>
      e.id == ({ d with isPinned := !d.isPinned } : SavedDiagram).id) = true :=
    List.any_eq_true.mpr ⟨d, hmem, beq_self_eq_true _⟩
  have hany2 : store.any (fun e =>
      e.id == ({ d with name := newName } : SavedDiagram).id) = true :=
    List.any_eq_true.mpr ⟨d, hmem, beq_self_eq_true _⟩
  constructor
  · refine ⟨setDb store { d with isPinned := !d.isPinned }, ?_, ?_, ?_, ?_⟩
    · unfold togglePinInDb
      rw [h]
    · exact fetchDiagram_setDb _ h rfl
    · exact (setDb_frame hany1).1
    · exact (setDb_frame hany1).2
  · refine ⟨setDb store { d with name := newName }, ?_, ?_, ?_, ?_⟩
    · unfold renameDiagramInDb
      rw [h]
    · exact fetchDiagram_setDb _ h rfl
    · exact (setDb_frame hany2).1
    · exact (setDb_frame hany2).2

/-- Witness for C9 at a concrete one-record store. -/
theorem pin_rename_frame_witness :
    ∃ s₁, togglePinInDb [recU0] "u0" = .ok (!recU0.isPinned, s₁) ∧
      fetchDiagram s₁ "u0" = some { recU0 with isPinned := !recU0.isPinned } ∧
      (∀ e ∈ s₁, e.id ≠ recU0.id → e ∈ [recU0]) ∧
      (∀ e ∈ [recU0], e.id ≠ recU0.id → e ∈ s₁) :=
  (pin_rename_frame [recU0] "u0" recU0 (by decide) "nn").1

/-- C8 counterexample: the claim says rename fails with `NotFound` when no
record with the id exists; but when additionally the new name trims to empty,
the code checks the name first and fails with `EmptyName` instead. -/
theorem rename_precedence_counterexample :
    fetchDiagram [] "x" = none ∧
    renameDiagram [] "x" " " = .error .emptyName ∧
    renameDiagram [] "x" " " ≠ .error .notFound := by
  decide

/-- C8 amended: `EmptyName` takes precedence — rename fails with `EmptyName`
whenever the new name trims to empty (even when the id is also absent), fails
with `NotFound` when the trimmed name is non-empty and the id is absent, and
on success persists the trimmed name on the addressed record; in both failure
cases the store is untouched (the error is thrown before any write). -/
theorem rename_contract (store : Store) (i newName : String) :
    (jsTrim newName = "" → renameDiagram store i newName = .error .emptyName) ∧
    (jsTrim newName ≠ "" → fetchDiagram store i = none →
      renameDiagram store i newName = .error .notFound) ∧
    (∀ d, jsTrim newName ≠ "" → fetchDiagram store i = some d →
      ∃ s', renameDiagram store i newName = .ok s' ∧
        fetchDiagram s' i = some { d with name := jsTrim newName }) := by
  refine ⟨?_, ?_, ?_⟩
  · intro he
    unfold renameDiagram
    rw [if_pos he]
  · intro he hn
    unfold renameDiagram
    rw [if_neg he]
    unfold renameDiagramInDb
    rw [hn]
  · intro d he hf
    refine ⟨setDb store { d with name := jsTrim newName }, ?_, ?_⟩
    · unfold renameDiagram
      rw [if_neg he]
      unfold renameDiagramInDb
      rw [hf]
    · exact fetchDiagram_setDb _ hf rfl

/-- Witness for the amended C8: a successful rename on a concrete store. -/
theorem rename_contract_witness :
    ∃ s', renameDiagram [recU0] "u0" " nm " = .ok s' ∧
      fetchDiagram s' "u0" = some { recU0 with name := jsTrim " nm " } :=
  (rename_contract [recU0] "u0" " nm ").2.2 recU0 (by decide) (by decide)

/-! ### C10 — whitespace-only source passes save but not autosave -/

/-- C10: save validates `source` by falsiness, not by trimming — a draft whose
source is non-empty but trims to empty (whitespace-only) is accepted by save
and creates a record, while the autosave scheduler's guard skips exactly such
tuples; so whitespace-only records arise through the manual save path only. -/
theorem whitespace_source_save (store : Store) (draft : DiagramDraft) (now : Int)
    (freshId : String) (h1 : draft.source ≠ "") (h2 : jsTrim draft.source = "")
    (h3 : draft.diagramType ≠ "") :
    (∃ s' n, saveDiagram store draft now freshId = .ok (freshId, s', n)) ∧
    autoSaveSchedules draft.source = false := by
  constructor
  · refine ⟨(cleanupDiagrams (setDb store (mkSavedDiagram draft now freshId)) now).1,
      (cleanupDiagrams (setDb store (mkSavedDiagram draft now freshId)) now).2, ?_⟩
    unfold saveDiagram
    rw [if_neg (by simp [h1, h3])]
    rfl
  · unfold autoSaveSchedules
    rw [h2]
    rfl

/-- A concrete whitespace-only draft. -/
def wsDraft : DiagramDraft :=
  { name := "n"
    source := " "
    diagramType := "plantuml"
    outputFormat := .svg
    options := [] }

/-- Witness for C10 at the whitespace-only draft. -/
theorem whitespace_source_save_witness :
    (∃ s' n, saveDiagram [] wsDraft 0 "w1" = .ok ("w1", s', n)) ∧
    autoSaveSchedules wsDraft.source = false :=
  whitespace_source_save [] wsDraft 0 "w1" (by decide) (by decide) (by decide)

end Kroki
